import Mathlib

/-!
Shallow embedding of the transactional object-storage core (dmu.c) of the
Mu-L/zfs repository: the write-policy computation, the intent-log forced
single-block sync, the chunked long free, the waiting prefetch, and the
single-block read header.  Definitions are translated from
src/module/zfs/dmu.c; constants and object-type predicates whose
definitions live in headers outside src are modelled from the spec and
marked as such in their doc comments.
-/

namespace ZfsDmu

/-! ## Constants (spa.h / dmu.h / zio.h values) -/

/-- SPA_BLKPTRSHIFT: log2 of the size of an on-disk block pointer (128 bytes). -/
def SPA_BLKPTRSHIFT : Nat := 7

/-- SPA_DVAS_PER_BP: maximum number of DVAs in one block pointer. -/
def SPA_DVAS_PER_BP : Nat := 3

/-- DMU_MAX_ACCESS: maximum bytes touched in one I/O batch (64MB, dmu.h). -/
def DMU_MAX_ACCESS : Nat := 64 * 1024 * 1024

/-- DMU_OBJECT_END: the all-ones length denoting "to the end of the object". -/
def DMU_OBJECT_END : Nat := 2 ^ 64 - 1

/-- TXG_SIZE: number of concurrently tracked transaction-group slots. -/
def TXG_SIZE : Nat := 4

/-- zio checksum enum values (zio.h). -/
def ZIO_CHECKSUM_INHERIT : Nat := 0
def ZIO_CHECKSUM_ON : Nat := 1
def ZIO_CHECKSUM_OFF : Nat := 2
def ZIO_CHECKSUM_FLETCHER_4 : Nat := 7
def ZIO_CHECKSUM_SHA256 : Nat := 8

/-- zio compression enum values (zio.h). -/
def ZIO_COMPRESS_INHERIT : Nat := 0
def ZIO_COMPRESS_ON : Nat := 1
def ZIO_COMPRESS_OFF : Nat := 2
def ZIO_COMPRESS_EMPTY : Nat := 4

/-- Unix error numbers used by the modelled code paths. -/
def EIO : Nat := 5
def EINTR : Nat := 4

/-! ## Object types

The `dmu_ot` table below is translated row by row from the table at the top
of src/module/zfs/dmu.c; the columns are the byteswap function index, the
`ot_metadata` flag, the `ot_dbuf_metadata` flag, the `ot_encrypt` flag and
the name. -/

/-- One row of the `dmu_ot` object-type info table. -/
structure OtInfo where
  ot_byteswap : Nat
  ot_metadata : Bool
  ot_dbuf_metadata : Bool
  ot_encrypt : Bool
  ot_name : String
deriving DecidableEq

/-- The `dmu_ot[DMU_OT_NUMTYPES]` table from src/module/zfs/dmu.c. -/
def dmu_ot : List OtInfo := [
  ⟨0, true,  false, false, "unallocated"⟩,
  ⟨4, true,  true,  false, "object directory"⟩,
  ⟨3, true,  true,  false, "object array"⟩,
  ⟨0, true,  false, false, "packed nvlist"⟩,
  ⟨3, true,  false, false, "packed nvlist size"⟩,
  ⟨3, true,  false, false, "bpobj"⟩,
  ⟨3, true,  false, false, "bpobj header"⟩,
  ⟨3, true,  false, false, "SPA space map header"⟩,
  ⟨3, true,  false, false, "SPA space map"⟩,
  ⟨3, true,  false, true,  "ZIL intent log"⟩,
  ⟨5, true,  false, true,  "DMU dnode"⟩,
  ⟨6, true,  true,  false, "DMU objset"⟩,
  ⟨3, true,  true,  false, "DSL directory"⟩,
  ⟨4, true,  true,  false, "DSL directory child map"⟩,
  ⟨4, true,  true,  false, "DSL dataset snap map"⟩,
  ⟨4, true,  true,  false, "DSL props"⟩,
  ⟨3, true,  true,  false, "DSL dataset"⟩,
  ⟨7, true,  false, false, "ZFS znode"⟩,
  ⟨8, true,  false, true,  "ZFS V0 ACL"⟩,
  ⟨0, false, false, true,  "ZFS plain file"⟩,
  ⟨4, true,  false, true,  "ZFS directory"⟩,
  ⟨4, true,  false, false, "ZFS master node"⟩,
  ⟨4, true,  false, true,  "ZFS delete queue"⟩,
  ⟨0, false, false, true,  "zvol object"⟩,
  ⟨4, true,  false, false, "zvol prop"⟩,
  ⟨0, false, false, true,  "other uint8[]"⟩,
  ⟨3, false, false, true,  "other uint64[]"⟩,
  ⟨4, true,  false, false, "other ZAP"⟩,
  ⟨4, true,  false, false, "persistent error log"⟩,
  ⟨0, true,  false, false, "SPA history"⟩,
  ⟨3, true,  false, false, "SPA history offsets"⟩,
  ⟨4, true,  true,  false, "Pool properties"⟩,
  ⟨4, true,  true,  false, "DSL permissions"⟩,
  ⟨9, true,  false, true,  "ZFS ACL"⟩,
  ⟨0, true,  false, true,  "ZFS SYSACL"⟩,
  ⟨0, true,  false, true,  "FUID table"⟩,
  ⟨3, true,  false, false, "FUID table size"⟩,
  ⟨4, true,  true,  false, "DSL dataset next clones"⟩,
  ⟨4, true,  false, false, "scan work queue"⟩,
  ⟨4, true,  false, true,  "ZFS user/group/project used"⟩,
  ⟨4, true,  false, true,  "ZFS user/group/project quota"⟩,
  ⟨4, true,  true,  false, "snapshot refcount tags"⟩,
  ⟨4, true,  false, false, "DDT ZAP algorithm"⟩,
  ⟨4, true,  false, false, "DDT statistics"⟩,
  ⟨0, true,  false, true,  "System attributes"⟩,
  ⟨4, true,  false, true,  "SA master node"⟩,
  ⟨4, true,  false, true,  "SA attr registration"⟩,
  ⟨4, true,  false, true,  "SA attr layouts"⟩,
  ⟨4, true,  false, false, "scan translations"⟩,
  ⟨0, false, false, true,  "deduplicated block"⟩,
  ⟨4, true,  true,  false, "DSL deadlist map"⟩,
  ⟨3, true,  true,  false, "DSL deadlist map hdr"⟩,
  ⟨4, true,  true,  false, "DSL dir clones"⟩,
  ⟨3, true,  false, false, "bpobj subobj"⟩]

/-- DMU_OT_NUMTYPES: number of legacy object types. -/
def DMU_OT_NUMTYPES : Nat := 54

/-- Modelled from the spec: dmu.h (not in src) encodes an object type either
as a legacy index into the `dmu_ot` table or as a new-style type carrying
its own byteswap function and metadata/encryption flag bits
(`DMU_OT(byteswap, metadata, encrypted)`). -/
inductive ObjectType where
  | legacy (idx : Nat)
  | newtype (byteswap : Nat) (md : Bool) (enc : Bool)
deriving DecidableEq

/-- Fallback row used for out-of-range legacy indices (never hit for valid types). -/
def otFallback : OtInfo := ⟨0, false, false, false, "invalid"⟩

/-- Modelled from the spec: DMU_OT_IS_METADATA (dmu.h, not in src) reads the
per-type metadata tag — the `ot_metadata` column of `dmu_ot` for legacy
types, the type's own metadata flag bit for new-style types. -/
def ObjectType.isMetadata : ObjectType → Bool
  | .legacy i => (dmu_ot.getD i otFallback).ot_metadata
  | .newtype _ md _ => md

/-- Modelled from the spec: DMU_OT_IS_ENCRYPTED (dmu.h, not in src) reads the
per-type "safe to handle under encryption" tag — the `ot_encrypt` column of
`dmu_ot` for legacy types, the type's own encryption flag bit for new-style
types. -/
def ObjectType.isEncrypted : ObjectType → Bool
  | .legacy i => (dmu_ot.getD i otFallback).ot_encrypt
  | .newtype _ _ enc => enc

/-- DMU_OT_NONE. -/
def DMU_OT_NONE : ObjectType := .legacy 0
/-- DMU_OT_DNODE. -/
def DMU_OT_DNODE : ObjectType := .legacy 10
/-- DMU_OT_OBJSET. -/
def DMU_OT_OBJSET : ObjectType := .legacy 11
/-- DMU_OT_PLAIN_FILE_CONTENTS. -/
def DMU_OT_PLAIN_FILE_CONTENTS : ObjectType := .legacy 19
/-- DMU_OT_DDT_ZAP. -/
def DMU_OT_DDT_ZAP : ObjectType := .legacy 42
/-- DMU_OT_ZVOL. -/
def DMU_OT_ZVOL : ObjectType := .legacy 23

/-! ## Write policy (dmu_write_policy) -/

/-- Flags of one entry of `zio_checksum_table` (zio_checksum.c, outside src;
the table itself is abstract in this model and supplied as an environment
function). -/
structure ChecksumInfo where
  flagMetadata : Bool
  flagEmbedded : Bool
  flagDedup : Bool
  flagNopwrite : Bool
deriving DecidableEq

/-- The `redundant_metadata` dataset property values. -/
inductive RedundantMetadata where
  | all | most | some_ | none_
deriving DecidableEq

/-- Module-scope tunables and external tables consumed by dmu.c.
`zfs_nopwrite_enabled` and `dmu_ddt_copies` are the tunables defined at the
top of src/module/zfs/dmu.c; `checksum_table` abstracts
`zio_checksum_table` (zio_checksum.c); `isCritical` and `isFile` abstract
the DMU_OT_IS_CRITICAL / DMU_OT_IS_FILE header macros; the three select
functions abstract zio_compress_select / zio_complevel_select /
zio_checksum_select (zio.c). -/
structure Tunables where
  zfs_nopwrite_enabled : Bool
  dmu_ddt_copies : Nat
  checksum_table : Nat → ChecksumInfo
  isCritical : ObjectType → Nat → Bool
  isFile : ObjectType → Bool
  compressSelect : Nat → Nat → Nat
  complevelSelect : Nat → Nat → Nat → Nat
  checksumSelect : Nat → Nat → Nat

/-- The objset-level fields of `objset_t` read by dmu_write_policy, plus the
pool's `spa_max_replication`. -/
structure Objset where
  os_checksum : Nat
  os_compress : Nat
  os_complevel : Nat
  os_dedup_checksum : Nat
  os_dedup_verify : Bool
  os_copies : Nat
  os_redundant_metadata : RedundantMetadata
  os_encrypted : Bool
  os_zpl_special_smallblock : Nat
  spa_max_replication : Nat

/-- The dnode fields read by dmu_write_policy. -/
structure Dnode where
  dn_type : ObjectType
  dn_checksum : Nat
  dn_compress : Nat
  dn_bonustype : ObjectType
  dn_storage_type : ObjectType
deriving DecidableEq

instance : Inhabited Dnode :=
  ⟨⟨DMU_OT_NONE, 0, 0, DMU_OT_NONE, DMU_OT_NONE⟩⟩

/-- The write-purpose flags WP_NOFILL / WP_DMU_SYNC / WP_SPILL. -/
structure WpFlags where
  nofill : Bool
  dmuSync : Bool
  spill : Bool
deriving DecidableEq

/-- The write-policy record `zio_prop_t` as filled in by dmu_write_policy
(the constant salt/iv/mac/byteorder fields are omitted). -/
structure ZioProp where
  zp_checksum : Nat
  zp_compress : Nat
  zp_complevel : Nat
  zp_type : ObjectType
  zp_level : Nat
  zp_copies : Nat
  zp_gang_copies : Nat
  zp_dedup : Bool
  zp_dedup_verify : Bool
  zp_nopwrite : Bool
  zp_encrypt : Bool
  zp_zpl_smallblk : Nat
  zp_storage_type : ObjectType
deriving DecidableEq

/-- `zfs_redundant_metadata_most_ditto_level` (dmu.c line 2313). -/
def zfs_redundant_metadata_most_ditto_level : Nat := 2

/-- Intermediate policy state: the local variables of dmu_write_policy after
the metadata / nofill / data three-way branch. -/
structure PolicySt where
  checksum : Nat
  compress : Nat
  complevel : Nat
  copies : Nat
  gang_copies : Nat
  dedup : Bool
  dedup_verify : Bool
  nopwrite : Bool
deriving DecidableEq

/-- The `ismd` (metadata) branch of dmu_write_policy (dmu.c 2339-2406). -/
def dmu_write_policy_md (g : Tunables) (os : Objset) (dn : Option Dnode)
    (type : ObjectType) (level : Nat) (wp : WpFlags) (st : PolicySt) : PolicySt :=
  let compress := g.compressSelect ZIO_COMPRESS_ON ZIO_COMPRESS_ON
  let checksum :=
    if !(g.checksum_table st.checksum).flagMetadata ∨
        (g.checksum_table st.checksum).flagEmbedded then
      ZIO_CHECKSUM_FLETCHER_4
    else st.checksum
  let (copies, gang_copies) :=
    match os.os_redundant_metadata with
    | .all => (st.copies + 1, st.gang_copies + 1)
    | .most =>
        let copies :=
          if level ≥ zfs_redundant_metadata_most_ditto_level ∨
              type.isMetadata ∨ wp.spill then st.copies + 1 else st.copies
        let gang_copies :=
          if level + 1 ≥ zfs_redundant_metadata_most_ditto_level ∨
              type.isMetadata ∨ wp.spill then st.gang_copies + 1 else st.gang_copies
        (copies, gang_copies)
    | .some_ =>
        if g.isCritical type level then (st.copies + 1, st.gang_copies + 1)
        else if type.isMetadata then (st.copies, st.gang_copies + 1)
        else (st.copies, st.gang_copies)
    | .none_ => (st.copies, st.gang_copies)
  let copies :=
    if g.dmu_ddt_copies > 0 then
      let stype := match dn with
        | some d => if d.dn_storage_type = DMU_OT_NONE then type else d.dn_storage_type
        | none => type
      if stype = DMU_OT_DDT_ZAP then
        if level ≥ zfs_redundant_metadata_most_ditto_level then
          g.dmu_ddt_copies + 1
        else g.dmu_ddt_copies
      else copies
    else copies
  { st with compress := compress, checksum := checksum,
            copies := copies, gang_copies := gang_copies }

/-- The WP_NOFILL (preallocated blocks) branch of dmu_write_policy
(dmu.c 2407-2418). -/
def dmu_write_policy_nofill (st : PolicySt) : PolicySt :=
  { st with compress := ZIO_COMPRESS_OFF, checksum := ZIO_CHECKSUM_OFF }

/-- The ordinary level-0 data branch of dmu_write_policy (dmu.c 2419-2469).
`dn` is always present on this branch in the source (a null dnode means an
objset write, which is metadata); the `default` dnode is a dead value. -/
def dmu_write_policy_data (g : Tunables) (os : Objset) (dn : Option Dnode)
    (wp : WpFlags) (st : PolicySt) : PolicySt :=
  let d := dn.getD default
  let compress := g.compressSelect d.dn_compress st.compress
  let complevel := g.complevelSelect compress st.complevel st.complevel
  let compress :=
    if compress = ZIO_COMPRESS_OFF ∧ os.os_dedup_checksum ≠ ZIO_CHECKSUM_OFF then
      ZIO_COMPRESS_EMPTY
    else compress
  let checksum :=
    if os.os_dedup_checksum = ZIO_CHECKSUM_OFF then
      g.checksumSelect d.dn_checksum st.checksum
    else os.os_dedup_checksum
  let dedup :=
    if os.os_dedup_checksum ≠ ZIO_CHECKSUM_OFF then !wp.dmuSync else st.dedup
  let dedup_verify :=
    if os.os_dedup_checksum ≠ ZIO_CHECKSUM_OFF ∧
        !(g.checksum_table checksum).flagDedup then true
    else st.dedup_verify
  let nopwrite := !dedup && (g.checksum_table checksum).flagNopwrite &&
    decide (compress ≠ ZIO_COMPRESS_OFF) && g.zfs_nopwrite_enabled
  let gang_copies :=
    if os.os_redundant_metadata = RedundantMetadata.all ∨
        (os.os_redundant_metadata = RedundantMetadata.most ∧
         zfs_redundant_metadata_most_ditto_level ≤ 1) then
      st.gang_copies + 1
    else st.gang_copies
  { checksum := checksum, compress := compress, complevel := complevel,
    copies := st.copies, gang_copies := gang_copies,
    dedup := dedup, dedup_verify := dedup_verify, nopwrite := nopwrite }

/-- The encrypted-objset adjustment of dmu_write_policy (dmu.c 2471-2495);
returns the adjusted state and the `encrypt` output flag. -/
def dmu_write_policy_encrypt (os : Objset) (type : ObjectType) (level : Nat)
    (wp : WpFlags) (st : PolicySt) : PolicySt × Bool :=
  if os.os_encrypted ∧ wp.nofill = false then
    let st :=
      if type.isEncrypted then
        { st with copies := min st.copies (SPA_DVAS_PER_BP - 1),
                  gang_copies := min st.gang_copies (SPA_DVAS_PER_BP - 1),
                  nopwrite := false }
      else { st with dedup := false }
    let st :=
      if level ≤ 0 ∧ (type = DMU_OT_DNODE ∨ type = DMU_OT_OBJSET) then
        { st with compress := ZIO_COMPRESS_EMPTY }
      else st
    (st, true)
  else (st, false)

/-- The object type used by dmu_write_policy: the dnode's type, or
DMU_OT_OBJSET for a null dnode (an objset write). -/
def policyType (dn : Option Dnode) : ObjectType :=
  match dn with | some d => d.dn_type | none => DMU_OT_OBJSET

/-- The initial local-variable state of dmu_write_policy (dmu.c 2321-2330). -/
def policySt0 (os : Objset) : PolicySt :=
  { checksum := os.os_checksum, compress := os.os_compress,
    complevel := os.os_complevel, copies := os.os_copies,
    gang_copies := os.os_copies, dedup := false,
    dedup_verify := os.os_dedup_verify, nopwrite := false }

/-- The metadata / preallocated / ordinary-data three-way branch of
dmu_write_policy (dmu.c 2339-2469). -/
def dmu_write_policy_branch (g : Tunables) (os : Objset) (dn : Option Dnode)
    (type : ObjectType) (level : Nat) (wp : WpFlags) (st0 : PolicySt) : PolicySt :=
  if decide (level > 0) || type.isMetadata || wp.spill then
    dmu_write_policy_md g os dn type level wp st0
  else if wp.nofill then dmu_write_policy_nofill st0
  else dmu_write_policy_data g os dn wp st0

/-- dmu_write_policy (dmu.c 2315-2520): computes the write-policy record from
the object type, block level, write purpose and dataset defaults. -/
def dmu_write_policy (g : Tunables) (os : Objset) (dn : Option Dnode)
    (level : Nat) (wp : WpFlags) : ZioProp :=
  let type := policyType dn
  let st := dmu_write_policy_branch g os dn type level wp (policySt0 os)
  let stEnc := dmu_write_policy_encrypt os type level wp st
  let zpType := if wp.spill then (dn.getD default).dn_bonustype else type
  { zp_checksum := stEnc.1.checksum, zp_compress := stEnc.1.compress,
    zp_complevel := stEnc.1.complevel, zp_type := zpType, zp_level := level,
    zp_copies := min stEnc.1.copies os.spa_max_replication,
    zp_gang_copies :=
      min (max stEnc.1.gang_copies stEnc.1.copies) os.spa_max_replication,
    zp_dedup := stEnc.1.dedup,
    zp_dedup_verify := stEnc.1.dedup && stEnc.1.dedup_verify,
    zp_nopwrite := stEnc.1.nopwrite, zp_encrypt := stEnc.2,
    zp_zpl_smallblk :=
      if g.isFile zpType ∨ zpType = DMU_OT_ZVOL then
        os.os_zpl_special_smallblock
      else 0,
    zp_storage_type := match dn with | some d => d.dn_storage_type | none => DMU_OT_NONE }

/-! ## Intent-log forced sync (dmu_sync) -/

/-- The override state of a level-0 dirty record (dbuf.h). -/
inductive OverrideState where
  | notOverridden
  | inDmuSync
  | overridden
deriving DecidableEq

/-- The fields of a level-0 dirty record read and written by dmu_sync. -/
structure DirtyLeaf where
  dr_txg : Nat
  dr_override_state : OverrideState
deriving DecidableEq

/-- The dbuf fields read by dmu_sync.  `db_dirty_records` is ordered newest
first (descending `dr_txg`), as in dbuf.c; `db_blkptr` abstracts the current
on-disk block pointer (`none` = never written / hole). -/
structure Dbuf where
  db_level : Nat
  db_blkid : Nat
  db_dirty_records : List DirtyLeaf
  db_blkptr : Option Nat
deriving DecidableEq

/-- The pool txg counters read by dmu_sync. -/
structure SpaSt where
  spa_freeze_txg : Nat
  spa_last_synced_txg : Nat
  spa_syncing_txg : Nat
deriving DecidableEq

/-- Oracles for the two fallible steps of dmu_sync_late_arrival: the
`dbuf_read` of the buffer and the non-blocking transaction assignment. -/
structure LateEnv where
  readRes : Except Nat Unit
  assignOk : Bool

/-- The outcome of dmu_sync. -/
inductive DmuSyncRes where
  | lateArrivalIssued (zp : ZioProp)
  | lateArrivalErr (e : Nat)
  | eexist
  | enoent
  | ealready
  | writeIssued (zp : ZioProp) (zgdBp : Option Nat)
deriving DecidableEq

/-- The nopwrite flag of an issued write, if the result issued one. -/
def DmuSyncRes.issuedNopwrite : DmuSyncRes → Option Bool
  | .writeIssued zp _ => some zp.zp_nopwrite
  | .lateArrivalIssued zp => some zp.zp_nopwrite
  | _ => none

/-- Whether the result issued the normal (dirty-record) write. -/
def DmuSyncRes.isWriteIssued : DmuSyncRes → Bool
  | .writeIssued _ _ => true
  | _ => false

/-- Whether the result issued a late-arrival write. -/
def DmuSyncRes.isLateArrivalIssued : DmuSyncRes → Bool
  | .lateArrivalIssued _ => true
  | _ => false

/-- `dbuf_find_dirty_eq` combined with `list_next`: the dirty record of the
requested txg together with the record following it in the newest-first list
(the next older record), if any. -/
def findDirtyWithNext : List DirtyLeaf → Nat → Option (DirtyLeaf × Option DirtyLeaf)
  | [], _ => none
  | d :: rest, txg =>
      if d.dr_txg = txg then some (d, rest.head?)
      else findDirtyWithNext rest txg

/-- Set the override state of the record for `txg` to DR_IN_DMU_SYNC. -/
def setInDmuSync (db : Dbuf) (txg : Nat) : Dbuf :=
  { db with db_dirty_records := db.db_dirty_records.map fun d =>
      if d.dr_txg = txg then { d with dr_override_state := .inDmuSync } else d }

/-- dmu_sync_late_arrival (dmu.c 1983-2053): reads the buffer, assigns a
fresh non-blocking transaction (EIO on failure), forces nopwrite off
(dmu.c 2044) and issues the write. -/
def dmu_sync_late_arrival (la : LateEnv) (zp : ZioProp) : DmuSyncRes :=
  match la.readRes with
  | .error e => .lateArrivalErr e
  | .ok () =>
      if la.assignOk then .lateArrivalIssued { zp with zp_nopwrite := false }
      else .lateArrivalErr EIO

/-- dmu_sync (dmu.c 2080-2222): force-sync the block of `db` for group `txg`
ahead of normal group sync.  `blockFreed` abstracts
`dnode_block_freed(dn, blkid)`.  Returns the outcome and the new dbuf
state. -/
def dmu_sync (g : Tunables) (os : Objset) (dn : Dnode) (blockFreed : Nat → Bool)
    (spa : SpaSt) (db : Dbuf) (txg : Nat) (la : LateEnv) : DmuSyncRes × Dbuf :=
  let zp := dmu_write_policy g os (some dn) db.db_level
    { nofill := false, dmuSync := true, spill := false }
  if txg > spa.spa_freeze_txg then
    (dmu_sync_late_arrival la zp, db)
  else if txg ≤ spa.spa_last_synced_txg then
    (.eexist, db)
  else if txg ≤ spa.spa_syncing_txg then
    (dmu_sync_late_arrival la zp, db)
  else
    match findDirtyWithNext db.db_dirty_records txg with
    | none => (.enoent, db)
    | some (dr, drNext) =>
        let zgdBp := db.db_blkptr
        let zp :=
          if drNext.isSome then { zp with zp_nopwrite := false }
          else if blockFreed db.db_blkid then { zp with zp_nopwrite := false }
          else zp
        if dr.dr_override_state = .inDmuSync ∨
            dr.dr_override_state = .overridden then
          (.ealready, db)
        else
          (.writeIssued zp zgdBp, setInDmuSync db txg)

/-! ## Chunked long free (get_next_chunk, dmu_free_long_range_impl) -/

/-- Result of one `dnode_next_offset(dn, DNODE_FIND_BACKWARDS, &off, 2, 1, 0)`
call: the offset of an allocated level-1 indirect found at or before the
query, ESRCH when none exists, or an I/O error. -/
inductive NextRes where
  | found (off : Nat)
  | esrch
  | ioerr (e : Nat)

/-- The dnode fields read by the long-free path (plain data only, so that
results are decidable). -/
structure FreeDn where
  dn_datablksz : Nat
  dn_indblkshift : Nat
  dn_nlevels : Nat
  dn_maxblkid : Nat
deriving DecidableEq

/-- Environment of the long-free path: the two dmu.c tunables feeding the
dirty-frees threshold, and per-iteration oracles for
`dmu_objset_zfs_unmounting`, `dmu_tx_assign` (error, or the assigned txg)
and the backward level-1 search of `dnode_next_offset`. -/
structure FreeEnv where
  zfs_dirty_data_max : Nat
  zfs_per_txg_dirty_frees_percent : Nat
  unmounting : Nat → Bool
  assign : Nat → Except Nat Nat
  nextL1Back : Nat → NextRes

/-- The pool state read and written by the long-free loop:
`dp_long_free_dirty_pertxg`, one accumulator per txg slot. -/
structure FreeState where
  longFreeDirty : List Nat
deriving DecidableEq

/-- `roundup(x, y)` (sysmacros.h): round `x` up to a multiple of `y`. -/
def roundup (x y : Nat) : Nat := (x + y - 1) / y * y

/-- `P2ALIGN_TYPED(x, align, ...)` for the power-of-two `align` used here
(`ISP2(iblkrange)` is asserted in the source): round down to a multiple. -/
def p2align (x align : Nat) : Nat := x / align * align

/-- Bytes of data covered by one level-1 indirect block:
`dn_datablksz * EPB(dn_indblkshift, SPA_BLKPTRSHIFT)` (dmu.c 913). -/
def iblkrangeOf (dn : FreeDn) : Nat :=
  dn.dn_datablksz * (1 <<< (dn.dn_indblkshift - SPA_BLKPTRSHIFT))

/-- The per-chunk cap on level-1 indirect blocks:
`DMU_MAX_ACCESS >> (dn_indblkshift + 1)` (dmu.c 911). -/
def maxblksOf (dn : FreeDn) : Nat := DMU_MAX_ACCESS >>> (dn.dn_indblkshift + 1)

/-- The backward scan loop of get_next_chunk (dmu.c 941-966).  The fuel is
`maxblks - blks`, so the `blks < maxblks` bound is the fuel running out. -/
def gncLoop (e : FreeEnv) (iblkrange minimum : Nat) :
    Nat → Nat → Nat → Except Nat (Nat × Nat)
  | 0, start, blks =>
      .ok (if start < minimum then minimum else start, blks)
  | fuel + 1, start, blks =>
      if start > minimum then
        match e.nextL1Back (start - 1) with
        | .esrch => .ok (minimum, blks)
        | .ioerr err => .error err
        | .found off => gncLoop e iblkrange minimum fuel (p2align off iblkrange) (blks + 1)
      else .ok (if start < minimum then minimum else start, blks)

/-- get_next_chunk (dmu.c 907-972): find the next chunk `[start', start)` to
free, scanning backward from `start` but not below `minimum`; returns the
new start and the number of level-1 indirect blocks in the chunk. -/
def get_next_chunk (e : FreeEnv) (dn : FreeDn) (start minimum : Nat) :
    Except Nat (Nat × Nat) :=
  let maxblks := maxblksOf dn
  let iblkrange := iblkrangeOf dn
  if dn.dn_nlevels ≤ 1 then .ok (minimum, 0)
  else
    let total_l1blks :=
      (roundup start iblkrange - minimum / iblkrange * iblkrange) / iblkrange
    if total_l1blks ≤ maxblks then .ok (minimum, total_l1blks)
    else gncLoop e iblkrange minimum maxblks start 0

/-- The dirty-frees throttle threshold (dmu.c 1007-1011). -/
def dirtyFreesThreshold (e : FreeEnv) : Nat :=
  if e.zfs_per_txg_dirty_frees_percent ≤ 100 then
    e.zfs_per_txg_dirty_frees_percent * e.zfs_dirty_data_max / 100
  else e.zfs_dirty_data_max / 20

/-- One observable step of the long-free loop: either a chunk freed in its
own committed transaction (`dnode_free_range` + `dmu_tx_commit`), or a
throttle wait (`dmu_tx_commit` with no free, then `txg_wait_open`).
`lfdSeen` records the `dp_long_free_dirty_pertxg` value read under the
pool lock for the assigned txg's slot. -/
inductive FreeEvent where
  | freed (txg chunkBegin chunkLen l1blks : Nat)
  | waited (txg lfdSeen : Nat)
deriving DecidableEq

/-- Read the per-txg dirty-frees accumulator. -/
def FreeState.read (st : FreeState) (txg : Nat) : Nat :=
  st.longFreeDirty.getD (txg % TXG_SIZE) 0

/-- Add to the per-txg dirty-frees accumulator (dmu.c 1079-1082). -/
def FreeState.add (st : FreeState) (txg amount : Nat) : FreeState :=
  { longFreeDirty :=
      st.longFreeDirty.set (txg % TXG_SIZE) (st.read txg + amount) }

/-- The while loop of dmu_free_long_range_impl (dmu.c 1016-1091), run on
fuel; `none` means the fuel ran out.  The fuel value also indexes the
per-iteration oracles. -/
def freeLoop (e : FreeEnv) (dn : FreeDn) (offset : Nat) :
    Nat → Nat → FreeState → List FreeEvent →
    Option (Except Nat Unit × FreeState × List FreeEvent)
  | 0, _, _, _ => none
  | fuel + 1, length, st, tr =>
      if length = 0 then some (.ok (), st, tr)
      else if e.unmounting fuel then some (.error EINTR, st, tr)
      else
        let chunk_end := offset + length
        match get_next_chunk e dn chunk_end offset with
        | .error err => some (.error err, st, tr)
        | .ok (chunk_begin, l1blks) =>
            let chunk_len := chunk_end - chunk_begin
            match e.assign fuel with
            | .error err => some (.error err, st, tr)
            | .ok txg =>
                let long_free_dirty := st.read txg
                if dirtyFreesThreshold e ≠ 0 ∧
                    long_free_dirty ≥ dirtyFreesThreshold e then
                  freeLoop e dn offset fuel length st
                    (tr ++ [.waited txg long_free_dirty])
                else
                  freeLoop e dn offset fuel (length - chunk_len)
                    (st.add txg (l1blks <<< dn.dn_indblkshift))
                    (tr ++ [.freed txg chunk_begin chunk_len l1blks])

/-- dmu_free_long_range_impl (dmu.c 991-1093): free `[offset, offset+length)`
chunk by chunk, each chunk in its own transaction. -/
def dmu_free_long_range_impl (e : FreeEnv) (dn : FreeDn)
    (offset length : Nat) (st : FreeState) (fuel : Nat) :
    Option (Except Nat Unit × FreeState × List FreeEvent) :=
  let object_size := (dn.dn_maxblkid + 1) * dn.dn_datablksz
  if offset ≥ object_size then some (.ok (), st, [])
  else
    let length :=
      if length = DMU_OBJECT_END ∨ offset + length > object_size then
        object_size - offset
      else length
    freeLoop e dn offset fuel length st []

/-- dmu_free_long_range (dmu.c 1095-1118), after a successful dnode hold:
runs the impl and zeroes `dn_maxblkid` when the entire object was freed
successfully. -/
def dmu_free_long_range (e : FreeEnv) (dn : FreeDn)
    (offset length : Nat) (st : FreeState) (fuel : Nat) :
    Option (Except Nat Unit × FreeDn × FreeState × List FreeEvent) :=
  match dmu_free_long_range_impl e dn offset length st fuel with
  | none => none
  | some (res, st', tr) =>
      let dn' :=
        if (res matches .ok _) ∧ offset = 0 ∧ length = DMU_OBJECT_END then
          { dn with dn_maxblkid := 0 }
        else dn
      some (res, dn', st', tr)

/-! ## Waiting prefetch (dmu_prefetch_wait) -/

/-- The dnode fields read by dmu_prefetch_wait. -/
structure PfDn where
  dn_datablksz : Nat
  dn_datablkshift : Nat
  dn_indblkshift : Nat
deriving DecidableEq

/-- Per-iteration oracle for `issig()` (pending interrupt signal). -/
structure PfEnv where
  issig : Nat → Bool

/-- `bp_span_in_blocks(indblkshift, level)`: number of level-0 blocks spanned
by one block at `level`. -/
def bp_span_in_blocks (indblkshift level : Nat) : Nat :=
  1 <<< ((indblkshift - SPA_BLKPTRSHIFT) * level)

/-- The chunk size of dmu_prefetch_wait (dmu.c 853-859): sixteen level-1
indirects' worth of data, or one data block when there is no indirection
shift. -/
def pfChunksize (dn : PfDn) : Nat :=
  if dn.dn_indblkshift ≠ 0 then
    (bp_span_in_blocks dn.dn_indblkshift 1 * 16) <<< dn.dn_datablkshift
  else dn.dn_datablksz

/-- The chunking loop of dmu_prefetch_wait (dmu.c 861-873).  Each trace entry
`(offset, len)` is one dmu_prefetch_wait_by_dnode call: the level-0
prefetches for that range are issued and the caller sleeps on the
completion-counting condition variable until they finish (the blocking wait
is a no-op in this sequential model).  `none` means the fuel ran out. -/
def pfLoop (e : PfEnv) (chunksize : Nat) :
    Nat → Nat → Nat → List (Nat × Nat) →
    Option (Except Nat Unit × List (Nat × Nat))
  | 0, _, _, _ => none
  | fuel + 1, offset, size, tr =>
      if size = 0 then some (.ok (), tr)
      else
        let mylen := min size chunksize
        let tr := tr ++ [(offset, mylen)]
        if e.issig fuel then some (.error EINTR, tr)
        else pfLoop e chunksize fuel (offset + mylen) (size - mylen) tr

/-- dmu_prefetch_wait (dmu.c 840-878), after a successful dnode hold:
prefetch `[offset, offset+size)` in bounded chunks, stopping with EINTR if a
signal is pending after a chunk completes. -/
def dmu_prefetch_wait (e : PfEnv) (dn : PfDn) (offset size fuel : Nat) :
    Option (Except Nat Unit × List (Nat × Nat)) :=
  pfLoop e (pfChunksize dn) fuel offset size []

/-- The chunks of a prefetch trace are consecutive starting from `o`. -/
def consecFrom : Nat → List (Nat × Nat) → Bool
  | _, [] => true
  | o, (a, l) :: rest => a = o && consecFrom (o + l) rest

/-- Total bytes covered by a prefetch trace. -/
def traceLen (tr : List (Nat × Nat)) : Nat := (tr.map Prod.snd).sum

/-! ## Single-block read (dmu_read_impl, dmu.c 1160-1190)

Only the `dn_maxblkid == 0` header is modelled in detail; the Direct I/O
branch and the multi-block copy loop below it reduce to calls into the
buffer-cache collaborator and are abstracted as one call to the underlying
buffered read `readRange` (which yields the bytes read, or an I/O error). -/

/-- The dnode fields read by dmu_read_impl. -/
structure ReadDn where
  dn_maxblkid : Nat
  dn_datablksz : Nat
deriving DecidableEq

/-- dmu_read_impl for a single-block object (dmu.c 1160-1190): reads past
the lone data block are satisfied by zero-filling the destination rather
than by I/O. -/
def dmu_read_impl (dn : ReadDn) (offset size : Nat)
    (readRange : Nat → Nat → Except Nat (List Nat)) : Except Nat (List Nat) :=
  if dn.dn_maxblkid = 0 then
    let newsz := if offset > dn.dn_datablksz then 0
                 else min size (dn.dn_datablksz - offset)
    if newsz = 0 then .ok (List.replicate size 0)
    else
      match readRange offset newsz with
      | .ok data => .ok (data ++ List.replicate (size - newsz) 0)
      | .error e => .error e
  else readRange offset size

/-! ## Concrete fixtures for witnesses and counterexamples -/

/-- A concrete instantiation of the abstract checksum-flag table: SHA-256 is
dedup- and nopwrite-capable, fletcher4 is a plain metadata checksum. -/
def egChecksumTable : Nat → ChecksumInfo := fun c =>
  if c = ZIO_CHECKSUM_SHA256 then ⟨true, false, true, true⟩
  else if c = ZIO_CHECKSUM_FLETCHER_4 then ⟨true, false, false, false⟩
  else ⟨false, false, false, false⟩

/-- A concrete tunables environment: nopwrite enabled, no DDT-copies
override, and select functions that resolve INHERIT to the parent value. -/
def egTunables : Tunables :=
  { zfs_nopwrite_enabled := true
    dmu_ddt_copies := 0
    checksum_table := egChecksumTable
    isCritical := fun _ _ => false
    isFile := fun _ => false
    compressSelect := fun child parent =>
      if child = ZIO_COMPRESS_INHERIT then parent else child
    complevelSelect := fun _ _ parent => parent
    checksumSelect := fun child parent =>
      if child = ZIO_CHECKSUM_INHERIT then parent else child }

/-- A plain (non-encrypted, non-dedup) objset whose file blocks qualify for
nopwrite: lzjb-style compression (3), sha-256 dnode checksum. -/
def egOsPlain : Objset :=
  { os_checksum := ZIO_CHECKSUM_FLETCHER_4, os_compress := 3, os_complevel := 0,
    os_dedup_checksum := ZIO_CHECKSUM_OFF, os_dedup_verify := false,
    os_copies := 1, os_redundant_metadata := .most, os_encrypted := false,
    os_zpl_special_smallblock := 0, spa_max_replication := 3 }

/-- An encrypted objset with three copies and fully redundant metadata. -/
def egOsEncMeta : Objset :=
  { os_checksum := ZIO_CHECKSUM_FLETCHER_4, os_compress := 3, os_complevel := 0,
    os_dedup_checksum := ZIO_CHECKSUM_OFF, os_dedup_verify := false,
    os_copies := 3, os_redundant_metadata := .all, os_encrypted := true,
    os_zpl_special_smallblock := 0, spa_max_replication := 3 }

/-- An encrypted objset with a dedup checksum configured. -/
def egOsEncDedup : Objset :=
  { os_checksum := ZIO_CHECKSUM_FLETCHER_4, os_compress := 3, os_complevel := 0,
    os_dedup_checksum := ZIO_CHECKSUM_SHA256, os_dedup_verify := false,
    os_copies := 1, os_redundant_metadata := .most, os_encrypted := true,
    os_zpl_special_smallblock := 0, spa_max_replication := 3 }

/-- A plain-file dnode with sha-256 checksum and compression set, so that
its level-0 write policy enables nopwrite. -/
def egDnFile : Dnode :=
  { dn_type := DMU_OT_PLAIN_FILE_CONTENTS, dn_checksum := ZIO_CHECKSUM_SHA256,
    dn_compress := 3, dn_bonustype := DMU_OT_NONE,
    dn_storage_type := DMU_OT_NONE }

/-- An objset-typed dnode (metadata, not flagged encryption-safe). -/
def egDnObjset : Dnode :=
  { dn_type := DMU_OT_OBJSET, dn_checksum := ZIO_CHECKSUM_INHERIT,
    dn_compress := ZIO_COMPRESS_INHERIT, dn_bonustype := DMU_OT_NONE,
    dn_storage_type := DMU_OT_NONE }

/-- A dnode of the new-style type DMU_OT(uint64, metadata=false,
encrypted=false) — e.g. DMU_OTN_UINT64_DATA: plain data that is not flagged
as safe to handle under encryption. -/
def egDnOtnData : Dnode :=
  { dn_type := .newtype 3 false false, dn_checksum := ZIO_CHECKSUM_INHERIT,
    dn_compress := ZIO_COMPRESS_INHERIT, dn_bonustype := DMU_OT_NONE,
    dn_storage_type := DMU_OT_NONE }

/-- A non-encrypted objset with a dedup checksum configured. -/
def egOsDedup : Objset := { egOsEncDedup with os_encrypted := false }

/-- A dbuf dirtied in groups 9 and 8 (newest first), neither record
overridden, with an on-disk block pointer. -/
def egDbTwoDirty : Dbuf :=
  { db_level := 0, db_blkid := 0,
    db_dirty_records := [⟨9, .notOverridden⟩, ⟨8, .notOverridden⟩],
    db_blkptr := some 42 }

/-- A dbuf whose requested record (group 8) is followed by a still-pending
record of the earlier group 7. -/
def egDbPendingPrev : Dbuf :=
  { db_level := 0, db_blkid := 0,
    db_dirty_records := [⟨8, .notOverridden⟩, ⟨7, .notOverridden⟩],
    db_blkptr := some 42 }

/-- A free-path environment: never unmounting, transaction assignment
succeeds with txg 2 - i at oracle index i, and no allocated level-1
indirects found by the backward scan. -/
def egFreeEnvPlain : FreeEnv :=
  { zfs_dirty_data_max := 1000, zfs_per_txg_dirty_frees_percent := 30,
    unmounting := fun _ => false, assign := fun i => .ok (2 - i),
    nextL1Back := fun _ => .esrch }

/-- A two-level dnode: 512-byte blocks, 1KB indirects, 100 blocks. -/
def egFreeDnTwoLevel : FreeDn := ⟨512, 10, 2, 99⟩

/-- A single-level dnode: 512-byte blocks, 4 blocks. -/
def egFreeDnFlat : FreeDn := ⟨512, 10, 1, 3⟩

/-- A pool state whose txg-slot 0 already carries 500 bytes of dirty
frees. -/
def egFreeStThrottled : FreeState := ⟨[500, 0, 0, 0]⟩

/-- A pool state with no accumulated dirty frees. -/
def egFreeStZero : FreeState := ⟨[0, 0, 0, 0]⟩

/-- A prefetch environment with no pending signal. -/
def egPfEnv : PfEnv := ⟨fun _ => false⟩

/-- A prefetch environment whose signal is pending at every check. -/
def egPfEnvSig : PfEnv := ⟨fun _ => true⟩

/-- A dnode for prefetch: 512-byte blocks (shift 9), 1KB indirects. -/
def egPfDn : PfDn := ⟨512, 9, 10⟩

/-- A single-block dnode for reads: maxblkid 0, 512-byte block. -/
def egReadDn : ReadDn := ⟨0, 512⟩

/-! ## Write-policy theorems -/

/-- The metadata branch leaves the dedup and nopwrite locals untouched. -/
theorem dmu_write_policy_md_keeps (g : Tunables) (os : Objset)
    (dn : Option Dnode) (type : ObjectType) (level : Nat) (wp : WpFlags)
    (st : PolicySt) :
    (dmu_write_policy_md g os dn type level wp st).dedup = st.dedup ∧
    (dmu_write_policy_md g os dn type level wp st).nopwrite = st.nopwrite := by
  unfold dmu_write_policy_md
  cases os.os_redundant_metadata <;> exact ⟨rfl, rfl⟩

/-- The preallocated-blocks branch leaves dedup and nopwrite untouched. -/
theorem dmu_write_policy_nofill_keeps (st : PolicySt) :
    (dmu_write_policy_nofill st).dedup = st.dedup ∧
    (dmu_write_policy_nofill st).nopwrite = st.nopwrite :=
  ⟨rfl, rfl⟩

/-- In the ordinary-data branch, nopwrite is computed as the conjunction of
the negation of dedup with the checksum/compression conditions, so the two
are never both set. -/
theorem dmu_write_policy_data_excl (g : Tunables) (os : Objset)
    (dn : Option Dnode) (wp : WpFlags) (st : PolicySt)
    (h : st.dedup = false) :
    ((dmu_write_policy_data g os dn wp st).dedup &&
     (dmu_write_policy_data g os dn wp st).nopwrite) = false := by
  unfold dmu_write_policy_data
  by_cases hq : os.os_dedup_checksum = ZIO_CHECKSUM_OFF
  · simp [hq, h]
  · simp only [hq, ne_eq, not_false_iff, if_true, if_pos]
    cases wp.dmuSync <;> simp

/-- The encrypted-objset adjustment never turns dedup or nopwrite on. -/
theorem dmu_write_policy_encrypt_excl (os : Objset) (type : ObjectType)
    (level : Nat) (wp : WpFlags) (st : PolicySt)
    (h : (st.dedup && st.nopwrite) = false) :
    ((dmu_write_policy_encrypt os type level wp st).1.dedup &&
     (dmu_write_policy_encrypt os type level wp st).1.nopwrite) = false := by
  unfold dmu_write_policy_encrypt
  split_ifs <;> simp_all

/-- The three-way branch preserves dedup/nopwrite exclusivity when it starts
from a state with dedup off. -/
theorem dmu_write_policy_branch_excl (g : Tunables) (os : Objset)
    (dn : Option Dnode) (type : ObjectType) (level : Nat) (wp : WpFlags)
    (st0 : PolicySt) (h : st0.dedup = false) :
    ((dmu_write_policy_branch g os dn type level wp st0).dedup &&
     (dmu_write_policy_branch g os dn type level wp st0).nopwrite) = false := by
  unfold dmu_write_policy_branch
  split_ifs
  · rw [(dmu_write_policy_md_keeps g os dn type level wp st0).1,
        (dmu_write_policy_md_keeps g os dn type level wp st0).2, h]
    simp
  · rw [(dmu_write_policy_nofill_keeps st0).1,
        (dmu_write_policy_nofill_keeps st0).2, h]
    simp
  · exact dmu_write_policy_data_excl g os dn wp st0 h

/-- The dedup flag of the final policy record is that of the adjusted state. -/
theorem dmu_write_policy_zp_dedup (g : Tunables) (os : Objset)
    (dn : Option Dnode) (level : Nat) (wp : WpFlags) :
    (dmu_write_policy g os dn level wp).zp_dedup =
    (dmu_write_policy_encrypt os (policyType dn) level wp
      (dmu_write_policy_branch g os dn (policyType dn) level wp
        (policySt0 os))).1.dedup := rfl

/-- The nopwrite flag of the final policy record is that of the adjusted
state. -/
theorem dmu_write_policy_zp_nopwrite (g : Tunables) (os : Objset)
    (dn : Option Dnode) (level : Nat) (wp : WpFlags) :
    (dmu_write_policy g os dn level wp).zp_nopwrite =
    (dmu_write_policy_encrypt os (policyType dn) level wp
      (dmu_write_policy_branch g os dn (policyType dn) level wp
        (policySt0 os))).1.nopwrite := rfl

/-- C6: for every input (object type, level, write purpose, dataset
defaults), the policy record produced by dmu_write_policy never has both
dedup and nopwrite enabled. -/
theorem dmu_write_policy_dedup_nopwrite_exclusive (g : Tunables) (os : Objset)
    (dn : Option Dnode) (level : Nat) (wp : WpFlags) :
    ((dmu_write_policy g os dn level wp).zp_dedup &&
     (dmu_write_policy g os dn level wp).zp_nopwrite) = false := by
  rw [dmu_write_policy_zp_dedup, dmu_write_policy_zp_nopwrite]
  exact dmu_write_policy_encrypt_excl os (policyType dn) level wp _
    (dmu_write_policy_branch_excl g os dn (policyType dn) level wp
      (policySt0 os) rfl)

/-- What the encrypted-objset adjustment does on an encrypted dataset
outside the no-fill path: marks the write encrypted; for encryption-safe
types caps the copy counts and clears nopwrite; for all other types clears
dedup (and touches neither copies nor nopwrite). -/
theorem dmu_write_policy_encrypt_spec (os : Objset) (type : ObjectType)
    (level : Nat) (wp : WpFlags) (st : PolicySt)
    (henc : os.os_encrypted = true) (hnf : wp.nofill = false) :
    (dmu_write_policy_encrypt os type level wp st).2 = true ∧
    (type.isEncrypted = true →
      (dmu_write_policy_encrypt os type level wp st).1.copies =
        min st.copies (SPA_DVAS_PER_BP - 1) ∧
      (dmu_write_policy_encrypt os type level wp st).1.gang_copies =
        min st.gang_copies (SPA_DVAS_PER_BP - 1) ∧
      (dmu_write_policy_encrypt os type level wp st).1.nopwrite = false) ∧
    (type.isEncrypted = false →
      (dmu_write_policy_encrypt os type level wp st).1.dedup = false) := by
  unfold dmu_write_policy_encrypt
  split_ifs <;> simp_all

/-- The checksum of the final policy record is that of the adjusted state. -/
theorem dmu_write_policy_zp_checksum (g : Tunables) (os : Objset)
    (dn : Option Dnode) (level : Nat) (wp : WpFlags) :
    (dmu_write_policy g os dn level wp).zp_checksum =
    (dmu_write_policy_encrypt os (policyType dn) level wp
      (dmu_write_policy_branch g os dn (policyType dn) level wp
        (policySt0 os))).1.checksum := rfl

/-- The copies of the final policy record: the adjusted state's copies,
clamped to the pool's replication maximum. -/
theorem dmu_write_policy_zp_copies (g : Tunables) (os : Objset)
    (dn : Option Dnode) (level : Nat) (wp : WpFlags) :
    (dmu_write_policy g os dn level wp).zp_copies =
    min (dmu_write_policy_encrypt os (policyType dn) level wp
      (dmu_write_policy_branch g os dn (policyType dn) level wp
        (policySt0 os))).1.copies os.spa_max_replication := rfl

/-- The gang copies of the final policy record. -/
theorem dmu_write_policy_zp_gang_copies (g : Tunables) (os : Objset)
    (dn : Option Dnode) (level : Nat) (wp : WpFlags) :
    (dmu_write_policy g os dn level wp).zp_gang_copies =
    min (max (dmu_write_policy_encrypt os (policyType dn) level wp
      (dmu_write_policy_branch g os dn (policyType dn) level wp
        (policySt0 os))).1.gang_copies
      (dmu_write_policy_encrypt os (policyType dn) level wp
      (dmu_write_policy_branch g os dn (policyType dn) level wp
        (policySt0 os))).1.copies) os.spa_max_replication := rfl

/-- The encrypt flag of the final policy record. -/
theorem dmu_write_policy_zp_encrypt (g : Tunables) (os : Objset)
    (dn : Option Dnode) (level : Nat) (wp : WpFlags) :
    (dmu_write_policy g os dn level wp).zp_encrypt =
    (dmu_write_policy_encrypt os (policyType dn) level wp
      (dmu_write_policy_branch g os dn (policyType dn) level wp
        (policySt0 os))).2 := rfl

/-- C5 (amended): for every write policy computed for an object of an
encrypted dataset outside the no-fill path, the write is marked encrypted;
for object types flagged as safe to handle under encryption the replication
copy counts are capped at SPA_DVAS_PER_BP - 1 and nopwrite is disabled;
for every other object type dedup is forced off. -/
theorem dmu_write_policy_encrypted (g : Tunables) (os : Objset)
    (dn : Option Dnode) (level : Nat) (wp : WpFlags)
    (henc : os.os_encrypted = true) (hnf : wp.nofill = false) :
    (dmu_write_policy g os dn level wp).zp_encrypt = true ∧
    ((policyType dn).isEncrypted = true →
      (dmu_write_policy g os dn level wp).zp_copies ≤ SPA_DVAS_PER_BP - 1 ∧
      (dmu_write_policy g os dn level wp).zp_gang_copies ≤ SPA_DVAS_PER_BP - 1 ∧
      (dmu_write_policy g os dn level wp).zp_nopwrite = false) ∧
    ((policyType dn).isEncrypted = false →
      (dmu_write_policy g os dn level wp).zp_dedup = false) := by
  have h := dmu_write_policy_encrypt_spec os (policyType dn) level wp
    (dmu_write_policy_branch g os dn (policyType dn) level wp (policySt0 os))
    henc hnf
  refine ⟨?_, ?_, ?_⟩
  · rw [dmu_write_policy_zp_encrypt]; exact h.1
  · intro he
    obtain ⟨hc, hg, hn⟩ := h.2.1 he
    refine ⟨?_, ?_, ?_⟩
    · rw [dmu_write_policy_zp_copies, hc]
      exact le_trans (Nat.min_le_left _ _) (Nat.min_le_right _ _)
    · rw [dmu_write_policy_zp_gang_copies, hc, hg]
      exact le_trans (Nat.min_le_left _ _)
        (max_le (Nat.min_le_right _ _) (Nat.min_le_right _ _))
    · rw [dmu_write_policy_zp_nopwrite]; exact hn
  · intro he
    rw [dmu_write_policy_zp_dedup]; exact h.2.2 he

/-- C5 witness: an encrypted dataset writing a plain-file block (a type
flagged encryption-safe) gets nopwrite disabled. -/
theorem dmu_write_policy_encrypted_witness :
    (dmu_write_policy egTunables egOsEncDedup (some egDnFile) 0
      ⟨false, false, false⟩).zp_nopwrite = false := by
  have h := dmu_write_policy_encrypted egTunables egOsEncDedup
    (some egDnFile) 0 ⟨false, false, false⟩ rfl rfl
  exact (h.2.1 (by decide)).2.2

/-- C5 counterexample: on an encrypted dataset, a metadata (objset-typed)
write with redundant_metadata=all and copies=3 yields three copies in the
final policy record — more than SPA_DVAS_PER_BP - 1 = 2 — because the cap
applies only to types flagged encryption-safe, not to every object of the
dataset as the claim states. -/
theorem dmu_write_policy_encrypted_copies_cx :
    egOsEncMeta.os_encrypted = true ∧
    (dmu_write_policy egTunables egOsEncMeta (some egDnObjset) 0
      ⟨false, false, false⟩).zp_copies = 3 ∧
    SPA_DVAS_PER_BP - 1 = 2 := by decide

/-- In the ordinary-data branch with a dedup checksum configured, dedup is
on exactly outside WP_DMU_SYNC and the checksum is the dedup checksum. -/
theorem dmu_write_policy_data_dedup (g : Tunables) (os : Objset)
    (dn : Option Dnode) (wp : WpFlags)
    (st : PolicySt) (hdc : os.os_dedup_checksum ≠ ZIO_CHECKSUM_OFF) :
    (dmu_write_policy_data g os dn wp st).dedup = !wp.dmuSync ∧
    (dmu_write_policy_data g os dn wp st).checksum = os.os_dedup_checksum := by
  unfold dmu_write_policy_data
  simp [hdc]

/-- The encrypted-objset adjustment keeps dedup and checksum unchanged when
the dataset is not encrypted or the type is flagged encryption-safe. -/
theorem dmu_write_policy_encrypt_keeps (os : Objset) (type : ObjectType)
    (level : Nat) (wp : WpFlags) (st : PolicySt)
    (h : os.os_encrypted = false ∨ type.isEncrypted = true) :
    (dmu_write_policy_encrypt os type level wp st).1.dedup = st.dedup ∧
    (dmu_write_policy_encrypt os type level wp st).1.checksum = st.checksum := by
  unfold dmu_write_policy_encrypt
  split_ifs <;> simp_all

/-- For a non-metadata non-spill level-0 non-nofill write, the branch is the
ordinary-data branch. -/
theorem dmu_write_policy_branch_eq_data (g : Tunables) (os : Objset)
    (dn : Option Dnode) (type : ObjectType) (wp : WpFlags) (st0 : PolicySt)
    (hmd : type.isMetadata = false) (hsp : wp.spill = false)
    (hnf : wp.nofill = false) :
    dmu_write_policy_branch g os dn type 0 wp st0 =
    dmu_write_policy_data g os dn wp st0 := by
  unfold dmu_write_policy_branch
  simp [hmd, hsp, hnf]

/-- C7 (amended): for a non-metadata, non-preallocated level-0 write on a
dataset whose dedup checksum is configured, provided the dataset is not
encrypted (or the object's type is flagged encryption-safe),
dmu_write_policy with WP_DMU_SYNC yields dedup off with the dedup checksum,
and the same inputs without WP_DMU_SYNC yield dedup on with the same
checksum. -/
theorem dmu_write_policy_dmu_sync_dedup (g : Tunables) (os : Objset)
    (d : Dnode) (hmd : d.dn_type.isMetadata = false)
    (hdc : os.os_dedup_checksum ≠ ZIO_CHECKSUM_OFF)
    (henc : os.os_encrypted = false ∨ d.dn_type.isEncrypted = true) :
    (dmu_write_policy g os (some d) 0 ⟨false, true, false⟩).zp_dedup = false ∧
    (dmu_write_policy g os (some d) 0 ⟨false, true, false⟩).zp_checksum =
      os.os_dedup_checksum ∧
    (dmu_write_policy g os (some d) 0 ⟨false, false, false⟩).zp_dedup = true ∧
    (dmu_write_policy g os (some d) 0 ⟨false, false, false⟩).zp_checksum =
      os.os_dedup_checksum := by
  have htype : policyType (some d) = d.dn_type := rfl
  have hbS := dmu_write_policy_branch_eq_data g os (some d) d.dn_type
    ⟨false, true, false⟩ (policySt0 os) hmd rfl rfl
  have hbN := dmu_write_policy_branch_eq_data g os (some d) d.dn_type
    ⟨false, false, false⟩ (policySt0 os) hmd rfl rfl
  have hdS := dmu_write_policy_data_dedup g os (some d) ⟨false, true, false⟩
    (policySt0 os) hdc
  have hdN := dmu_write_policy_data_dedup g os (some d) ⟨false, false, false⟩
    (policySt0 os) hdc
  have hkS := dmu_write_policy_encrypt_keeps os d.dn_type 0
    ⟨false, true, false⟩ (dmu_write_policy_data g os (some d)
      ⟨false, true, false⟩ (policySt0 os)) henc
  have hkN := dmu_write_policy_encrypt_keeps os d.dn_type 0
    ⟨false, false, false⟩ (dmu_write_policy_data g os (some d)
      ⟨false, false, false⟩ (policySt0 os)) henc
  refine ⟨?_, ?_, ?_, ?_⟩
  · rw [dmu_write_policy_zp_dedup, htype, hbS, hkS.1, hdS.1]; rfl
  · rw [dmu_write_policy_zp_checksum, htype, hbS, hkS.2, hdS.2]
  · rw [dmu_write_policy_zp_dedup, htype, hbN, hkN.1, hdN.1]; rfl
  · rw [dmu_write_policy_zp_checksum, htype, hbN, hkN.2, hdN.2]

/-- C7 witness: on a non-encrypted dedup dataset, a plain-file block write
without WP_DMU_SYNC gets dedup enabled. -/
theorem dmu_write_policy_dmu_sync_dedup_witness :
    (dmu_write_policy egTunables egOsDedup (some egDnFile) 0
      ⟨false, false, false⟩).zp_dedup = true := by
  have h := dmu_write_policy_dmu_sync_dedup egTunables egOsDedup egDnFile
    (by decide) (by decide) (Or.inl rfl)
  exact h.2.2.1

/-- C7 counterexample: on an encrypted dataset with a dedup checksum
configured, a non-metadata write of a type not flagged encryption-safe
(DMU_OT(uint64, false, false)) without WP_DMU_SYNC still has dedup forced
off, contradicting the claim that the same inputs without the flag yield
dedup enabled. -/
theorem dmu_write_policy_dmu_sync_dedup_cx :
    egDnOtnData.dn_type.isMetadata = false ∧
    egOsEncDedup.os_dedup_checksum ≠ ZIO_CHECKSUM_OFF ∧
    (dmu_write_policy egTunables egOsEncDedup (some egDnOtnData) 0
      ⟨false, false, false⟩).zp_dedup = false := by decide

/-! ## dmu_sync theorems -/

/-- C1 (amended): when dmu_sync issues the normal write for the requested
group, the nopwrite flag has been forced off whenever the requested group's
dirty record is followed by a still-pending record of an earlier group, or
the block has been freed in the object; the late-arrival path always forces
nopwrite off. -/
theorem dmu_sync_nopwrite_disabled (g : Tunables) (os : Objset) (dn : Dnode)
    (bf : Nat → Bool) (spa : SpaSt) (db : Dbuf) (txg : Nat) (la : LateEnv) :
    ((dmu_sync g os dn bf spa db txg la).1.isWriteIssued = true →
      ((∃ dr drn, findDirtyWithNext db.db_dirty_records txg =
          some (dr, some drn)) ∨ bf db.db_blkid = true) →
      (dmu_sync g os dn bf spa db txg la).1.issuedNopwrite = some false) ∧
    ((dmu_sync g os dn bf spa db txg la).1.isLateArrivalIssued = true →
      (dmu_sync g os dn bf spa db txg la).1.issuedNopwrite = some false) := by
  unfold dmu_sync dmu_sync_late_arrival
  split
  · split
    · simp [DmuSyncRes.isWriteIssued, DmuSyncRes.isLateArrivalIssued]
    · split <;>
        simp [DmuSyncRes.isWriteIssued, DmuSyncRes.isLateArrivalIssued,
          DmuSyncRes.issuedNopwrite]
  · split
    · simp [DmuSyncRes.isWriteIssued, DmuSyncRes.isLateArrivalIssued]
    · split
      · split
        · simp [DmuSyncRes.isWriteIssued, DmuSyncRes.isLateArrivalIssued]
        · split <;>
            simp [DmuSyncRes.isWriteIssued, DmuSyncRes.isLateArrivalIssued,
              DmuSyncRes.issuedNopwrite]
      · split
        · simp [DmuSyncRes.isWriteIssued, DmuSyncRes.isLateArrivalIssued]
        · rename_i dr drn heq
          split
          · split <;>
              simp [DmuSyncRes.isWriteIssued, DmuSyncRes.isLateArrivalIssued,
                DmuSyncRes.issuedNopwrite]
          · rename_i hsome
            split
            · split <;>
                simp [DmuSyncRes.isWriteIssued, DmuSyncRes.isLateArrivalIssued,
                  DmuSyncRes.issuedNopwrite]
            · rename_i hbf
              split
              · simp [DmuSyncRes.isWriteIssued, DmuSyncRes.isLateArrivalIssued]
              · constructor
                · intro _ hcond
                  exfalso
                  rcases hcond with ⟨dr', drn', h'⟩ | hb
                  · rw [heq] at h'
                    have hp := Option.some.inj h'
                    rw [Prod.ext_iff] at hp
                    have h2 : drn = some drn' := hp.2
                    exact hsome (by rw [h2]; rfl)
                  · exact hbf hb
                · intro hfalse
                  simp [DmuSyncRes.isLateArrivalIssued] at hfalse

/-- C1 witness: forcing group 8's block while group 7's record is still
pending issues the write with nopwrite off. -/
theorem dmu_sync_nopwrite_disabled_witness :
    (dmu_sync egTunables egOsPlain egDnFile (fun _ => false) ⟨1000000, 5, 6⟩
      egDbPendingPrev 8 ⟨.ok (), true⟩).1.issuedNopwrite = some false := by
  exact (dmu_sync_nopwrite_disabled egTunables egOsPlain egDnFile
      (fun _ => false) ⟨1000000, 5, 6⟩ egDbPendingPrev 8 ⟨.ok (), true⟩).1
    (by decide)
    (Or.inl ⟨⟨8, .notOverridden⟩, ⟨7, .notOverridden⟩, rfl⟩)

/-- C1 counterexample: a *newer* dirty record (group 9) on the buffer does
not force nopwrite off for group 8's sync — the code only checks the next
*older* record — so the claim's "newer dirty record for a later group"
condition is falsified: the write is issued with nopwrite still on. -/
theorem dmu_sync_newer_dirty_nopwrite_cx :
    egDbTwoDirty.db_dirty_records.any (fun d => decide (8 < d.dr_txg)) = true ∧
    (dmu_sync egTunables egOsPlain egDnFile (fun _ => false) ⟨1000000, 6, 7⟩
      egDbTwoDirty 8 ⟨.ok (), true⟩).1.isWriteIssued = true ∧
    (dmu_sync egTunables egOsPlain egDnFile (fun _ => false) ⟨1000000, 6, 7⟩
      egDbTwoDirty 8 ⟨.ok (), true⟩).1.issuedNopwrite = some true := by
  decide

/-- C2: dmu_sync settles into exactly one of the documented outcomes,
characterized by the guards checked in source order: past the freeze txg it
takes the late-arrival path; at or below the last synced txg it returns
EEXIST; at or below the syncing txg it takes the late-arrival path (leaving
the dbuf untouched); with no dirty record for the group it returns ENOENT;
with the record already in DR_IN_DMU_SYNC or DR_OVERRIDDEN it returns
EALREADY; otherwise it marks the record DR_IN_DMU_SYNC and issues the
write. -/
theorem dmu_sync_outcomes (g : Tunables) (os : Objset) (dn : Dnode)
    (bf : Nat → Bool) (spa : SpaSt) (db : Dbuf) (txg : Nat) (la : LateEnv) :
    (txg > spa.spa_freeze_txg →
      dmu_sync g os dn bf spa db txg la =
        (dmu_sync_late_arrival la (dmu_write_policy g os (some dn) db.db_level
          ⟨false, true, false⟩), db)) ∧
    (txg ≤ spa.spa_freeze_txg → txg ≤ spa.spa_last_synced_txg →
      dmu_sync g os dn bf spa db txg la = (.eexist, db)) ∧
    (txg ≤ spa.spa_freeze_txg → spa.spa_last_synced_txg < txg →
      txg ≤ spa.spa_syncing_txg →
      dmu_sync g os dn bf spa db txg la =
        (dmu_sync_late_arrival la (dmu_write_policy g os (some dn) db.db_level
          ⟨false, true, false⟩), db)) ∧
    (txg ≤ spa.spa_freeze_txg → spa.spa_last_synced_txg < txg →
      spa.spa_syncing_txg < txg →
      findDirtyWithNext db.db_dirty_records txg = none →
      dmu_sync g os dn bf spa db txg la = (.enoent, db)) ∧
    (∀ dr drn, txg ≤ spa.spa_freeze_txg → spa.spa_last_synced_txg < txg →
      spa.spa_syncing_txg < txg →
      findDirtyWithNext db.db_dirty_records txg = some (dr, drn) →
      (dr.dr_override_state = .inDmuSync ∨
       dr.dr_override_state = .overridden) →
      dmu_sync g os dn bf spa db txg la = (.ealready, db)) ∧
    (∀ dr drn, txg ≤ spa.spa_freeze_txg → spa.spa_last_synced_txg < txg →
      spa.spa_syncing_txg < txg →
      findDirtyWithNext db.db_dirty_records txg = some (dr, drn) →
      dr.dr_override_state = .notOverridden →
      ∃ zp, dmu_sync g os dn bf spa db txg la =
        (.writeIssued zp db.db_blkptr, setInDmuSync db txg)) := by
  refine ⟨?_, ?_, ?_, ?_, ?_, ?_⟩
  · intro h1
    simp [dmu_sync, h1]
  · intro h1 h2
    simp [dmu_sync, Nat.not_lt.mpr h1, h2]
  · intro h1 h2 h3
    simp [dmu_sync, Nat.not_lt.mpr h1, Nat.not_le.mpr h2, h3]
  · intro h1 h2 h3 h4
    simp [dmu_sync, Nat.not_lt.mpr h1, Nat.not_le.mpr h2, Nat.not_le.mpr h3, h4]
  · intro dr drn h1 h2 h3 h4 h5
    simp only [dmu_sync, Nat.not_lt.mpr h1, if_neg, if_false,
      Nat.not_le.mpr h2, Nat.not_le.mpr h3, h4]
    rcases h5 with h5 | h5 <;>
      simp [Nat.not_lt.mpr h1, Nat.not_le.mpr h2, Nat.not_le.mpr h3, h5]
  · intro dr drn h1 h2 h3 h4 h5
    simp only [dmu_sync, h4]
    simp [Nat.not_lt.mpr h1, Nat.not_le.mpr h2, Nat.not_le.mpr h3, h5]

/-- C2 witness: forcing a group at or below the last synced txg returns
EEXIST and leaves the dbuf untouched. -/
theorem dmu_sync_outcomes_witness :
    dmu_sync egTunables egOsPlain egDnFile (fun _ => false) ⟨100, 10, 10⟩
      egDbTwoDirty 5 ⟨.ok (), true⟩ = (.eexist, egDbTwoDirty) :=
  (dmu_sync_outcomes egTunables egOsPlain egDnFile (fun _ => false)
    ⟨100, 10, 10⟩ egDbTwoDirty 5 ⟨.ok (), true⟩).2.1 (by decide) (by decide)

/-! ## Chunked-free theorems -/

/-- Bounds of the backward scan loop: the returned start stays between the
minimum and the loop's entry point, and at most one level-1 block is
counted per iteration of fuel. -/
theorem gncLoop_bounds (e : FreeEnv) (iblkrange minimum start0 : Nat)
    (hs : ∀ x y, e.nextL1Back x = .found y → y ≤ x) :
    ∀ fuel start blks s' l1, minimum ≤ start0 → start ≤ start0 →
      gncLoop e iblkrange minimum fuel start blks = .ok (s', l1) →
      minimum ≤ s' ∧ s' ≤ start0 ∧ l1 ≤ blks + fuel := by
  intro fuel
  induction fuel with
  | zero =>
      intro start blks s' l1 h0 h1 h2
      simp only [gncLoop, Except.ok.injEq, Prod.mk.injEq] at h2
      obtain ⟨h2a, h2b⟩ := h2
      subst h2a h2b
      split
      · exact ⟨le_rfl, h0, le_rfl⟩
      · next hx => exact ⟨Nat.le_of_not_lt hx, h1, le_rfl⟩
  | succ f ih =>
      intro start blks s' l1 h0 h1 h2
      rw [gncLoop] at h2
      split at h2
      · split at h2
        · simp only [Except.ok.injEq, Prod.mk.injEq] at h2
          obtain ⟨h2a, h2b⟩ := h2
          subst h2a h2b
          exact ⟨le_rfl, h0, by omega⟩
        · exact absurd h2 (by simp)
        · next off heqf =>
            have hoff : off ≤ start - 1 := hs _ _ heqf
            have hle : p2align off iblkrange ≤ start0 :=
              le_trans (Nat.div_mul_le_self off iblkrange)
                (le_trans hoff (le_trans (Nat.sub_le start 1) h1))
            have := ih (p2align off iblkrange) (blks + 1) s' l1 h0 hle h2
            exact ⟨this.1, this.2.1, by omega⟩
      · simp only [Except.ok.injEq, Prod.mk.injEq] at h2
        obtain ⟨h2a, h2b⟩ := h2
        subst h2a h2b
        split
        · exact ⟨le_rfl, h0, by omega⟩
        · next hx => exact ⟨Nat.le_of_not_lt hx, h1, by omega⟩

/-- Bounds of get_next_chunk: the chosen chunk start never moves below the
requested minimum nor above the entry offset, and the chunk covers at most
`maxblksOf dn` level-1 indirect blocks. -/
theorem get_next_chunk_bounds (e : FreeEnv) (dn : FreeDn)
    (hs : ∀ x y, e.nextL1Back x = .found y → y ≤ x)
    (start minimum s' l1 : Nat) (hms : minimum ≤ start)
    (h : get_next_chunk e dn start minimum = .ok (s', l1)) :
    minimum ≤ s' ∧ s' ≤ start ∧ l1 ≤ maxblksOf dn := by
  unfold get_next_chunk at h
  by_cases hn : dn.dn_nlevels ≤ 1
  · rw [if_pos hn] at h
    simp only [Except.ok.injEq, Prod.mk.injEq] at h
    obtain ⟨ha, hb⟩ := h
    subst ha hb
    exact ⟨le_rfl, hms, Nat.zero_le _⟩
  · rw [if_neg hn] at h
    dsimp only [] at h
    by_cases ht : (roundup start (iblkrangeOf dn) -
          minimum / iblkrangeOf dn * iblkrangeOf dn) / iblkrangeOf dn ≤
        maxblksOf dn
    · rw [if_pos ht] at h
      simp only [Except.ok.injEq, Prod.mk.injEq] at h
      obtain ⟨ha, hb⟩ := h
      subst ha hb
      exact ⟨le_rfl, hms, ht⟩
    · rw [if_neg ht] at h
      have := gncLoop_bounds e (iblkrangeOf dn) minimum start hs
        (maxblksOf dn) start 0 s' l1 hms le_rfl h
      exact ⟨this.1, this.2.1, by omega⟩

/-- Every chunk the free loop appends to its trace was chosen by
get_next_chunk, so it satisfies the per-chunk bounds. -/
theorem freeLoop_freed_bounds (e : FreeEnv) (dn : FreeDn) (offset : Nat)
    (hs : ∀ x y, e.nextL1Back x = .found y → y ≤ x) :
    ∀ fuel length st tr res st' tr',
      freeLoop e dn offset fuel length st tr = some (res, st', tr') →
      (∀ txg b len l1, FreeEvent.freed txg b len l1 ∈ tr →
        l1 ≤ maxblksOf dn ∧ offset ≤ b) →
      ∀ txg b len l1, FreeEvent.freed txg b len l1 ∈ tr' →
        l1 ≤ maxblksOf dn ∧ offset ≤ b := by
  intro fuel
  induction fuel with
  | zero =>
      intro length st tr res st' tr' h
      exact absurd h (by simp [freeLoop])
  | succ f ih =>
      intro length st tr res st' tr' h hbase txg b len l1 hmem
      rw [freeLoop] at h
      by_cases hlen : length = 0
      · rw [if_pos hlen] at h
        simp only [Option.some.injEq, Prod.mk.injEq] at h
        obtain ⟨-, -, rfl⟩ := h
        exact hbase txg b len l1 hmem
      · rw [if_neg hlen] at h
        by_cases hum : e.unmounting f = true
        · rw [if_pos hum] at h
          simp only [Option.some.injEq, Prod.mk.injEq] at h
          obtain ⟨-, -, rfl⟩ := h
          exact hbase txg b len l1 hmem
        · rw [if_neg hum] at h
          dsimp only [] at h
          rcases heqc : get_next_chunk e dn (offset + length) offset with
            err | ⟨cb, l1b⟩
          · rw [heqc] at h
            simp only [Option.some.injEq, Prod.mk.injEq] at h
            obtain ⟨-, -, rfl⟩ := h
            exact hbase txg b len l1 hmem
          · rw [heqc] at h
            dsimp only [] at h
            rcases heqa : e.assign f with err | t
            · rw [heqa] at h
              simp only [Option.some.injEq, Prod.mk.injEq] at h
              obtain ⟨-, -, rfl⟩ := h
              exact hbase txg b len l1 hmem
            · rw [heqa] at h
              dsimp only [] at h
              by_cases hc : dirtyFreesThreshold e ≠ 0 ∧
                  st.read t ≥ dirtyFreesThreshold e
              · rw [if_pos hc] at h
                refine ih _ _ _ _ _ _ h ?_ txg b len l1 hmem
                intro txg' b' len' l1' hmem'
                rcases List.mem_append.mp hmem' with hin | hin
                · exact hbase txg' b' len' l1' hin
                · simp at hin
              · rw [if_neg hc] at h
                refine ih _ _ _ _ _ _ h ?_ txg b len l1 hmem
                intro txg' b' len' l1' hmem'
                rcases List.mem_append.mp hmem' with hin | hin
                · exact hbase txg' b' len' l1' hin
                · have hgb := get_next_chunk_bounds e dn hs
                    (offset + length) offset cb l1b (Nat.le_add_right _ _)
                    heqc
                  simp at hin
                  obtain ⟨-, h2, -, h4⟩ := hin
                  exact ⟨h4 ▸ hgb.2.2, h2 ▸ hgb.1⟩

/-- C3: every chunk chosen by get_next_chunk covers at most
DMU_MAX_ACCESS >> (indblkshift + 1) level-1 indirect blocks and starts no
lower than the requested minimum (and no higher than the scan entry point);
consequently every chunk freed by dmu_free_long_range_impl — each one in
its own transaction, one `freed` trace event per committed transaction —
touches at most that cap and stays at or above the range start. -/
theorem chunked_free_bounded (e : FreeEnv) (dn : FreeDn)
    (hs : ∀ x y, e.nextL1Back x = .found y → y ≤ x) :
    (∀ start minimum s' l1, minimum ≤ start →
      get_next_chunk e dn start minimum = .ok (s', l1) →
      minimum ≤ s' ∧ s' ≤ start ∧
        l1 ≤ DMU_MAX_ACCESS >>> (dn.dn_indblkshift + 1)) ∧
    (∀ offset length st fuel res st' tr,
      dmu_free_long_range_impl e dn offset length st fuel =
        some (res, st', tr) →
      ∀ txg b len l1, FreeEvent.freed txg b len l1 ∈ tr →
        l1 ≤ DMU_MAX_ACCESS >>> (dn.dn_indblkshift + 1) ∧ offset ≤ b) := by
  constructor
  · intro start minimum s' l1 hms h
    exact get_next_chunk_bounds e dn hs start minimum s' l1 hms h
  · intro offset length st fuel res st' tr h txg b len l1 hmem
    unfold dmu_free_long_range_impl at h
    dsimp only [] at h
    by_cases ho : offset ≥ (dn.dn_maxblkid + 1) * dn.dn_datablksz
    · rw [if_pos ho] at h
      simp only [Option.some.injEq, Prod.mk.injEq] at h
      obtain ⟨-, -, rfl⟩ := h
      simp at hmem
    · rw [if_neg ho] at h
      exact freeLoop_freed_bounds e dn offset hs fuel _ st [] res st' tr h
        (by intro txg' b' len' l1' hmem'; simp at hmem') txg b len l1 hmem

/-- C3 witness: on a two-level object the fast path chooses the whole range
as one chunk of 13 level-1 blocks, within the cap. -/
theorem chunked_free_bounded_witness :
    (0 : Nat) ≤ 0 ∧ (0 : Nat) ≤ 51200 ∧
      13 ≤ DMU_MAX_ACCESS >>> (egFreeDnTwoLevel.dn_indblkshift + 1) :=
  (chunked_free_bounded egFreeEnvPlain egFreeDnTwoLevel
    (fun x y h => nomatch h)).1 51200 0 0 13 (by decide) rfl

/-- Every wait event the free loop appends to its trace was emitted with a
nonzero threshold and an observed accumulator at or above it. -/
theorem freeLoop_throttle (e : FreeEnv) (dn : FreeDn) (offset : Nat) :
    ∀ fuel length st tr res st' tr',
      freeLoop e dn offset fuel length st tr = some (res, st', tr') →
      (∀ txg v, FreeEvent.waited txg v ∈ tr →
        dirtyFreesThreshold e ≠ 0 ∧ dirtyFreesThreshold e ≤ v) →
      ∀ txg v, FreeEvent.waited txg v ∈ tr' →
        dirtyFreesThreshold e ≠ 0 ∧ dirtyFreesThreshold e ≤ v := by
  intro fuel
  induction fuel with
  | zero =>
      intro length st tr res st' tr' h
      exact absurd h (by simp [freeLoop])
  | succ f ih =>
      intro length st tr res st' tr' h hbase txg v hmem
      rw [freeLoop] at h
      by_cases hlen : length = 0
      · rw [if_pos hlen] at h
        simp only [Option.some.injEq, Prod.mk.injEq] at h
        obtain ⟨-, -, rfl⟩ := h
        exact hbase txg v hmem
      · rw [if_neg hlen] at h
        by_cases hum : e.unmounting f = true
        · rw [if_pos hum] at h
          simp only [Option.some.injEq, Prod.mk.injEq] at h
          obtain ⟨-, -, rfl⟩ := h
          exact hbase txg v hmem
        · rw [if_neg hum] at h
          dsimp only [] at h
          rcases heqc : get_next_chunk e dn (offset + length) offset with
            err | ⟨cb, l1b⟩
          · rw [heqc] at h
            simp only [Option.some.injEq, Prod.mk.injEq] at h
            obtain ⟨-, -, rfl⟩ := h
            exact hbase txg v hmem
          · rw [heqc] at h
            dsimp only [] at h
            rcases heqa : e.assign f with err | t
            · rw [heqa] at h
              simp only [Option.some.injEq, Prod.mk.injEq] at h
              obtain ⟨-, -, rfl⟩ := h
              exact hbase txg v hmem
            · rw [heqa] at h
              dsimp only [] at h
              by_cases hc : dirtyFreesThreshold e ≠ 0 ∧
                  st.read t ≥ dirtyFreesThreshold e
              · rw [if_pos hc] at h
                refine ih _ _ _ _ _ _ h ?_ txg v hmem
                intro txg' v' hmem'
                rcases List.mem_append.mp hmem' with hin | hin
                · exact hbase txg' v' hin
                · simp at hin
                  exact ⟨hc.1, hin.2 ▸ hc.2⟩
              · rw [if_neg hc] at h
                refine ih _ _ _ _ _ _ h ?_ txg v hmem
                intro txg' v' hmem'
                rcases List.mem_append.mp hmem' with hin | hin
                · exact hbase txg' v' hin
                · simp at hin

/-- C4: the long-free loop emits a throttle wait (commit without freeing,
then wait for the next open group) only when the dirty-frees threshold is
nonzero and the accumulator it read for the assigned group's slot has
reached the threshold; with the threshold zero the wait is never taken. -/
theorem dmu_free_throttle (e : FreeEnv) (dn : FreeDn) :
    (∀ offset length st fuel res st' tr,
      dmu_free_long_range_impl e dn offset length st fuel =
        some (res, st', tr) →
      ∀ txg v, FreeEvent.waited txg v ∈ tr →
        dirtyFreesThreshold e ≠ 0 ∧ dirtyFreesThreshold e ≤ v) ∧
    (dirtyFreesThreshold e = 0 →
      ∀ offset length st fuel res st' tr,
      dmu_free_long_range_impl e dn offset length st fuel =
        some (res, st', tr) →
      ∀ txg v, FreeEvent.waited txg v ∉ tr) := by
  have hmain : ∀ offset length st fuel res st' tr,
      dmu_free_long_range_impl e dn offset length st fuel =
        some (res, st', tr) →
      ∀ txg v, FreeEvent.waited txg v ∈ tr →
        dirtyFreesThreshold e ≠ 0 ∧ dirtyFreesThreshold e ≤ v := by
    intro offset length st fuel res st' tr h txg v hmem
    unfold dmu_free_long_range_impl at h
    dsimp only [] at h
    by_cases ho : offset ≥ (dn.dn_maxblkid + 1) * dn.dn_datablksz
    · rw [if_pos ho] at h
      simp only [Option.some.injEq, Prod.mk.injEq] at h
      obtain ⟨-, -, rfl⟩ := h
      simp at hmem
    · rw [if_neg ho] at h
      exact freeLoop_throttle e dn offset fuel _ st [] res st' tr h
        (by intro txg' v' hmem'; simp at hmem') txg v hmem
  refine ⟨hmain, ?_⟩
  intro hz offset length st fuel res st' tr h txg v hmem
  exact (hmain offset length st fuel res st' tr h txg v hmem).1 hz

/-- C4 witness: with a 30% threshold of a 1000-byte dirty-data ceiling
(300 bytes) and 500 bytes already accumulated for the assigned group's
slot, the loop emits a throttle wait. -/
theorem dmu_free_throttle_witness :
    dirtyFreesThreshold egFreeEnvPlain ≠ 0 ∧
    dirtyFreesThreshold egFreeEnvPlain ≤ 500 :=
  (dmu_free_throttle egFreeEnvPlain egFreeDnFlat).1 0 DMU_OBJECT_END
    egFreeStThrottled 3 (.ok ()) ⟨[500, 0, 0, 0]⟩
    [.waited 0 500, .freed 1 0 2048 0] rfl 0 500 (by decide)

/-- A loop with nothing left to free returns success immediately. -/
theorem freeLoop_zero (e : FreeEnv) (dn : FreeDn) (offset fuel : Nat)
    (st : FreeState) (tr : List FreeEvent) (hf : 1 ≤ fuel) :
    freeLoop e dn offset fuel 0 st tr = some (.ok (), st, tr) := by
  obtain ⟨f, rfl⟩ : ∃ f, fuel = f + 1 := ⟨fuel - 1, by omega⟩
  rw [freeLoop]
  simp

/-- On an object whose data fits under one level-1 indirect, get_next_chunk
takes a fast path and selects the whole range as a single chunk. -/
theorem get_next_chunk_single (e : FreeEnv) (dn : FreeDn)
    (hdb : 0 < dn.dn_datablksz) (hmb : 1 ≤ maxblksOf dn) :
    get_next_chunk e dn dn.dn_datablksz 0 =
      .ok (0, if dn.dn_nlevels ≤ 1 then 0 else 1) := by
  unfold get_next_chunk
  by_cases hn : dn.dn_nlevels ≤ 1
  · rw [if_pos hn, if_pos hn]
  · rw [if_neg hn, if_neg hn]
    dsimp only []
    have hib : 0 < iblkrangeOf dn := by
      unfold iblkrangeOf
      rw [Nat.one_shiftLeft]
      exact Nat.mul_pos hdb (pow_pos (by norm_num) _)
    have hble : dn.dn_datablksz ≤ iblkrangeOf dn := by
      unfold iblkrangeOf
      rw [Nat.one_shiftLeft]
      exact Nat.le_mul_of_pos_right _ (pow_pos (by norm_num) _)
    have htot : (roundup dn.dn_datablksz (iblkrangeOf dn) -
        0 / iblkrangeOf dn * iblkrangeOf dn) / iblkrangeOf dn = 1 := by
      rw [Nat.zero_div, Nat.zero_mul, Nat.sub_zero]
      unfold roundup
      have h1 : (dn.dn_datablksz + iblkrangeOf dn - 1) / iblkrangeOf dn = 1 :=
        Nat.div_eq_of_lt_le (by omega) (by omega)
      rw [h1, one_mul, Nat.div_self hib]
    rw [htot, if_pos hmb]

/-- One iteration of the free loop that frees the whole remaining range as a
single committed chunk. -/
theorem freeLoop_single_chunk (e : FreeEnv) (dn : FreeDn)
    (offset length l1 t : Nat) (st : FreeState) (f : Nat)
    (hne : length ≠ 0)
    (hu1 : e.unmounting (f + 1) = false)
    (hchunk : get_next_chunk e dn (offset + length) offset = .ok (offset, l1))
    (hat : e.assign (f + 1) = .ok t)
    (hnothr : ¬(dirtyFreesThreshold e ≠ 0 ∧
      dirtyFreesThreshold e ≤ st.read t)) :
    freeLoop e dn offset (f + 2) length st [] =
      some (.ok (), st.add t (l1 <<< dn.dn_indblkshift),
        [FreeEvent.freed t offset length l1]) := by
  rw [show f + 2 = (f + 1) + 1 from rfl, freeLoop]
  rw [if_neg hne]
  rw [if_neg (by rw [hu1]; exact Bool.false_ne_true)]
  dsimp only []
  rw [hchunk]
  dsimp only []
  rw [hat]
  dsimp only []
  rw [if_neg hnothr]
  simp only [Nat.add_sub_cancel_left, Nat.sub_self, List.nil_append]
  exact freeLoop_zero e dn offset (f + 1) _ _ (by omega)

/-- C8: freeing an object's entire range is idempotent.  If
dmu_free_long_range(0, DMU_OBJECT_END) succeeded (after which dn_maxblkid
is 0), then — in a benign environment (no unmount, transactions assign, the
throttle is off or below threshold) — repeating the identical call
succeeds, frees a single chunk [0, datablksz) that lies inside the range
the first call already freed, and leaves dn_maxblkid at 0. -/
theorem dmu_free_long_range_idempotent (e : FreeEnv) (dn dn' : FreeDn)
    (st st' : FreeState) (tr : List FreeEvent) (fuel fuel₂ : Nat)
    (h1 : dmu_free_long_range e dn 0 DMU_OBJECT_END st fuel =
      some (.ok (), dn', st', tr))
    (hdb : 0 < dn.dn_datablksz) (hmb : 1 ≤ maxblksOf dn)
    (hu : ∀ i, e.unmounting i = false)
    (ha : ∀ i, ∃ t, e.assign i = .ok t)
    (hthr : ∀ t, dirtyFreesThreshold e = 0 ∨
      FreeState.read st' t < dirtyFreesThreshold e)
    (hf2 : 2 ≤ fuel₂) :
    ∃ t l1 st'',
      dmu_free_long_range e dn' 0 DMU_OBJECT_END st' fuel₂ =
        some (.ok (), dn', st'', [FreeEvent.freed t 0 dn.dn_datablksz l1]) ∧
      dn'.dn_maxblkid = 0 ∧
      dn.dn_datablksz ≤ (dn.dn_maxblkid + 1) * dn.dn_datablksz := by
  have hdn' : dn' = { dn with dn_maxblkid := 0 } := by
    unfold dmu_free_long_range at h1
    rcases himp : dmu_free_long_range_impl e dn 0 DMU_OBJECT_END st fuel with
      _ | ⟨res, stX, trX⟩
    · rw [himp] at h1
      exact absurd h1 (by simp)
    · rw [himp] at h1
      dsimp only [] at h1
      simp only [Option.some.injEq, Prod.mk.injEq] at h1
      obtain ⟨hres, hdnX, -, -⟩ := h1
      subst hres
      rw [← hdnX]
      simp
  obtain ⟨f, rfl⟩ : ∃ f, fuel₂ = f + 2 := ⟨fuel₂ - 2, by omega⟩
  obtain ⟨t, hat⟩ := ha (f + 1)
  have hdbeq : dn'.dn_datablksz = dn.dn_datablksz := by rw [hdn']
  have hdb'' : 0 < dn'.dn_datablksz := by rw [hdn']; exact hdb
  have hmb' : 1 ≤ maxblksOf dn' := by rw [hdn']; exact hmb
  have hos : (dn'.dn_maxblkid + 1) * dn'.dn_datablksz = dn.dn_datablksz := by
    rw [hdn']
    exact one_mul _
  have hchunk2 : get_next_chunk e dn' (0 + dn.dn_datablksz) 0 =
      .ok (0, if dn'.dn_nlevels ≤ 1 then 0 else 1) := by
    rw [Nat.zero_add, ← hdbeq]
    exact get_next_chunk_single e dn' hdb'' hmb'
  have hnothr : ¬(dirtyFreesThreshold e ≠ 0 ∧
      dirtyFreesThreshold e ≤ st'.read t) := by
    rcases hthr t with hz | hlt
    · exact fun hc => hc.1 hz
    · exact fun hc => absurd hc.2 (Nat.not_le.mpr hlt)
  have himpl2 : dmu_free_long_range_impl e dn' 0 DMU_OBJECT_END st' (f + 2) =
      some (.ok (), st'.add t
        ((if dn'.dn_nlevels ≤ 1 then 0 else 1) <<< dn'.dn_indblkshift),
        [FreeEvent.freed t 0 dn.dn_datablksz
          (if dn'.dn_nlevels ≤ 1 then 0 else 1)]) := by
    unfold dmu_free_long_range_impl
    dsimp only []
    rw [if_neg (by rw [hos]; omega)]
    rw [if_pos (Or.inl rfl)]
    rw [Nat.sub_zero, hos]
    exact freeLoop_single_chunk e dn' 0 dn.dn_datablksz _ t st' f
      (by omega) (hu (f + 1)) hchunk2 hat hnothr
  refine ⟨t, (if dn'.dn_nlevels ≤ 1 then 0 else 1),
    st'.add t ((if dn'.dn_nlevels ≤ 1 then 0 else 1) <<< dn'.dn_indblkshift),
    ?_, by rw [hdn'], Nat.le_mul_of_pos_left _ (Nat.succ_pos _)⟩
  unfold dmu_free_long_range
  rw [himpl2]
  dsimp only []
  rw [if_pos ⟨rfl, rfl, rfl⟩]
  rw [show ({ dn' with dn_maxblkid := 0 }) = dn' from by rw [hdn']]

/-- C8 witness: after a successful whole-object free of a four-block object
(which zeroed dn_maxblkid), repeating the identical call succeeds as a
no-op covering only the already-freed first block's worth of range. -/
theorem dmu_free_long_range_idempotent_witness :
    ∃ t l1 st'',
      dmu_free_long_range egFreeEnvPlain ⟨512, 10, 1, 0⟩ 0 DMU_OBJECT_END
        ⟨[0, 0, 0, 0]⟩ 4 =
        some (.ok (), ⟨512, 10, 1, 0⟩, st'',
          [FreeEvent.freed t 0 egFreeDnFlat.dn_datablksz l1]) ∧
      (⟨512, 10, 1, 0⟩ : FreeDn).dn_maxblkid = 0 ∧
      egFreeDnFlat.dn_datablksz ≤
        (egFreeDnFlat.dn_maxblkid + 1) * egFreeDnFlat.dn_datablksz := by
  refine dmu_free_long_range_idempotent egFreeEnvPlain egFreeDnFlat
    ⟨512, 10, 1, 0⟩ egFreeStZero ⟨[0, 0, 0, 0]⟩ [.freed 0 0 2048 0] 3 4
    rfl (by decide) (by decide) (fun _ => rfl) (fun i => ⟨2 - i, rfl⟩)
    ?_ (by decide)
  intro t
  refine Or.inr ?_
  have hg : ∀ i, ([0, 0, 0, 0] : List Nat).getD i 0 = 0 := by
    intro i
    rcases i with _ | _ | _ | _ | i <;> rfl
  rw [show FreeState.read ⟨[0, 0, 0, 0]⟩ t = 0 from hg (t % TXG_SIZE)]
  decide

/-! ## Prefetch-wait theorems -/

/-- Specification of the prefetch chunking loop: the chunks appended to the
trace are consecutive, nonempty, of at most the chunk size, and cover a
prefix of the remaining range — the whole of it exactly when the loop
returns success; the only results are success and EINTR. -/
theorem pfLoop_spec (e : PfEnv) (cs : Nat) (hcs : cs ≠ 0) :
    ∀ fuel offset size tr res tr',
      size < fuel →
      pfLoop e cs fuel offset size tr = some (res, tr') →
      ∃ tl, tr' = tr ++ tl ∧ consecFrom offset tl = true ∧
        (∀ p ∈ tl, p.2 ≠ 0 ∧ p.2 ≤ cs) ∧
        traceLen tl ≤ size ∧
        (res = .ok () → traceLen tl = size) ∧
        (res = .ok () ∨ res = .error EINTR) := by
  intro fuel
  induction fuel with
  | zero =>
      intro offset size tr res tr' hf h
      omega
  | succ f ih =>
      intro offset size tr res tr' hf h
      rw [pfLoop] at h
      by_cases hsz : size = 0
      · rw [if_pos hsz] at h
        simp only [Option.some.injEq, Prod.mk.injEq] at h
        obtain ⟨rfl, rfl⟩ := h
        exact ⟨[], by simp, rfl, by simp, by simp [traceLen],
          fun _ => by simp [traceLen, hsz], Or.inl rfl⟩
      · rw [if_neg hsz] at h
        dsimp only [] at h
        have hm1 : 1 ≤ min size cs := by
          rcases Nat.eq_zero_or_pos (min size cs) with hz | hp
          · rw [Nat.min_def] at hz
            split at hz <;> omega
          · exact hp
        have hmle : min size cs ≤ size := Nat.min_le_left _ _
        by_cases hsig : e.issig f = true
        · rw [if_pos hsig] at h
          simp only [Option.some.injEq, Prod.mk.injEq] at h
          obtain ⟨rfl, rfl⟩ := h
          refine ⟨[(offset, min size cs)], rfl, ?_, ?_, ?_, ?_, Or.inr rfl⟩
          · simp [consecFrom]
          · intro p hp
            simp only [List.mem_singleton] at hp
            subst hp
            exact ⟨by omega, Nat.min_le_right _ _⟩
          · simp [traceLen]
          · intro hok
            exact absurd hok (by simp)
        · rw [if_neg hsig] at h
          obtain ⟨tl', htr', hcons, hall, hlen, hok, hres⟩ :=
            ih (offset + min size cs) (size - min size cs)
              (tr ++ [(offset, min size cs)]) res tr' (by omega) h
          refine ⟨(offset, min size cs) :: tl', ?_, ?_, ?_, ?_, ?_, hres⟩
          · rw [htr']
            simp
          · simp [consecFrom, hcons]
          · intro p hp
            rcases List.mem_cons.mp hp with hp | hp
            · subst hp
              exact ⟨by omega, Nat.min_le_right _ _⟩
            · exact hall p hp
          · simp only [traceLen, List.map_cons, List.sum_cons]
            have := hlen
            simp only [traceLen] at this
            omega
          · intro hok2
            have := hok hok2
            simp only [traceLen, List.map_cons, List.sum_cons]
            simp only [traceLen] at this
            omega

/-- C9: dmu_prefetch_wait splits the range into consecutive chunks of at
most `pfChunksize` bytes each (sixteen level-1 indirects' worth, or one
data block without an indirect shift), prefetching a prefix of the
requested range; it returns success exactly when the whole range was
covered, and otherwise stops with EINTR after a chunk when a signal is
pending. -/
theorem dmu_prefetch_wait_spec (e : PfEnv) (dn : PfDn)
    (offset size fuel : Nat) (res : Except Nat Unit) (tr : List (Nat × Nat))
    (hcs : pfChunksize dn ≠ 0) (hfuel : size < fuel)
    (h : dmu_prefetch_wait e dn offset size fuel = some (res, tr)) :
    consecFrom offset tr = true ∧
    (∀ p ∈ tr, p.2 ≠ 0 ∧ p.2 ≤ pfChunksize dn) ∧
    traceLen tr ≤ size ∧
    (res = .ok () → traceLen tr = size) ∧
    (res = .ok () ∨ res = .error EINTR) := by
  obtain ⟨tl, htl, hcons, hall, hlen, hok, hres⟩ :=
    pfLoop_spec e (pfChunksize dn) hcs fuel offset size [] res tr hfuel h
  simp only [List.nil_append] at htl
  subst htl
  exact ⟨hcons, hall, hlen, hok, hres⟩

/-- C9 witness: a 1000-byte range on a 512-byte-block dnode with a 64KB
chunk size is prefetched in one whole-range chunk with success. -/
theorem dmu_prefetch_wait_spec_witness :
    consecFrom 0 [(0, 1000)] = true ∧
    (∀ p ∈ [((0 : Nat), (1000 : Nat))], p.2 ≠ 0 ∧ p.2 ≤ pfChunksize egPfDn) ∧
    traceLen [(0, 1000)] ≤ 1000 ∧
    ((Except.ok () : Except Nat Unit) = .ok () → traceLen [(0, 1000)] = 1000) ∧
    ((Except.ok () : Except Nat Unit) = .ok () ∨
      (Except.ok () : Except Nat Unit) = .error EINTR) :=
  dmu_prefetch_wait_spec egPfEnv egPfDn 0 1000 1001 (.ok ()) [(0, 1000)]
    (by decide) (by decide) rfl

/-! ## Single-block read theorems -/

/-- C10: for a single-block object (dn_maxblkid = 0), reads at or past the
data block size zero-fill the whole destination and succeed regardless of
the underlying reader — even one that always fails; reads overlapping the
block read only the in-block prefix and zero-fill the rest. -/
theorem dmu_read_impl_single_block (dn : ReadDn) (offset size : Nat)
    (readRange : Nat → Nat → Except Nat (List Nat))
    (h0 : dn.dn_maxblkid = 0) :
    (dn.dn_datablksz ≤ offset →
      dmu_read_impl dn offset size readRange = .ok (List.replicate size 0)) ∧
    (∀ data, offset < dn.dn_datablksz → 0 < size →
      readRange offset (min size (dn.dn_datablksz - offset)) = .ok data →
      dmu_read_impl dn offset size readRange =
        .ok (data ++
          List.replicate (size - min size (dn.dn_datablksz - offset)) 0)) := by
  constructor
  · intro hpast
    unfold dmu_read_impl
    rw [if_pos h0]
    dsimp only []
    by_cases hgt : offset > dn.dn_datablksz
    · rw [if_pos hgt]
      rw [if_pos rfl]
    · rw [if_neg hgt]
      have hz : min size (dn.dn_datablksz - offset) = 0 := by omega
      rw [hz, if_pos rfl]
  · intro data hin hsz hread
    unfold dmu_read_impl
    rw [if_pos h0]
    dsimp only []
    rw [if_neg (show ¬offset > dn.dn_datablksz by omega)]
    rw [if_neg (Nat.pos_iff_ne_zero.mp (lt_min_iff.mpr ⟨hsz, by omega⟩))]
    rw [hread]

/-- C10 witness: reading 10 bytes at offset 600 of a 512-byte single-block
object succeeds with an all-zero buffer even though the underlying reader
always fails with EIO. -/
theorem dmu_read_impl_single_block_witness :
    dmu_read_impl egReadDn 600 10 (fun _ _ => .error EIO) =
      .ok (List.replicate 10 0) :=
  (dmu_read_impl_single_block egReadDn 600 10 (fun _ _ => .error EIO)
    rfl).1 (by decide)

end ZfsDmu
